import Mathlib

/-!
Verification development for `cybouze8-2-googlecalendar` (`main.go`), a
Go program that scrapes a Cybozu Office 8 calendar and mirrors it into a
Google calendar.  The definitions below are a shallow embedding of the
program's pure core: date/time arithmetic (`time.Date`, `time.Parse`,
`Format`), the regex-driven field extraction, event normalization
(`updateEvent`, `updateBannerEvent`, `selectedIntValue`), the deletion
window decision of `DeleteUpcomingEvents`, the retry loops of `Upsert`
and `DeleteEvent`, and the cookie scan of `getAGSESSID`.
Machine integers are modelled as `Int`/`Nat`; instants are seconds since
the Unix epoch.  Fallible steps return `Option`; Go slice-index panics
are modelled by explicit `panicked` outcomes.
-/

namespace Cybozu2GCal

/-! ### Civil-date arithmetic (model of Go `time`)

Days are counted from 1970-01-01 (the Unix epoch).  `daysFromCivil` and
`civilFromDays` are the standard civil-calendar conversions used by Go's
`time` package semantics (proleptic Gregorian).  Division follows C
truncation (`Int.tdiv`) with the usual sign guards, as in the reference
algorithm. -/

def isLeap (y : Int) : Bool :=
  (y % 4 == 0 && y % 100 != 0) || y % 400 == 0

def daysInMonth (y : Int) (m : Nat) : Nat :=
  if m == 2 then (if isLeap y then 29 else 28)
  else if m == 4 || m == 6 || m == 9 || m == 11 then 30
  else 31

/-- Days since 1970-01-01 of the civil date `(y, m, d)`; `m` must be in
`1..12`, `d` may be any integer (day overflow is pure day arithmetic). -/
def daysFromCivil (y m d : Int) : Int :=
  let y1 := y - (if m ≤ 2 then 1 else 0)
  let era := Int.tdiv (if 0 ≤ y1 then y1 else y1 - 399) 400
  let yoe := y1 - era * 400
  let doy := Int.tdiv (153 * (m + (if 2 < m then -3 else 9)) + 2) 5 + d - 1
  let doe := yoe * 365 + Int.tdiv yoe 4 - Int.tdiv yoe 100 + doy
  era * 146097 + doe - 719468

/-- Inverse of `daysFromCivil`: the civil date of a day count. -/
def civilFromDays (z0 : Int) : Int × Int × Int :=
  let z := z0 + 719468
  let era := Int.tdiv (if 0 ≤ z then z else z - 146096) 146097
  let doe := z - era * 146097
  let yoe := Int.tdiv (doe - Int.tdiv doe 1460 + Int.tdiv doe 36524 - Int.tdiv doe 146096) 365
  let y := yoe + era * 400
  let doy := doe - (365 * yoe + Int.tdiv yoe 4 - Int.tdiv yoe 100)
  let mp := Int.tdiv (5 * doy + 2) 153
  let d := doy - Int.tdiv (153 * mp + 2) 5 + 1
  let m := mp + (if mp < 10 then 3 else -9)
  (y + (if m ≤ 2 then 1 else 0), m, d)

/-- The day-of-year offset of month `m` in the March-shifted calendar
used by `daysFromCivil` (its `doy` term before the day is added). -/
def monthDoy (m : Int) : Int :=
  Int.tdiv (153 * (m + (if 2 < m then -3 else 9)) + 2) 5

/-- Model of Go `time.Date`'s year/month normalization followed by the
day count: months outside `1..12` carry into the year (floor semantics,
as in Go's `norm`), and the day is pure offset arithmetic. -/
def dateToDays (y m d : Int) : Int :=
  let carry := Int.fdiv (m - 1) 12
  let yAdj := y + carry
  let mAdj := (m - 1) - 12 * carry + 1
  daysFromCivil yAdj mAdj 1 + (d - 1)

/-- Fixed offset of `Asia/Tokyo` (UTC+9, no DST), in seconds. -/
def tokyoOff : Int := 9 * 3600

/-- Model of Go `time.Date(y, m, d, hh, mm, 0, 0, loc)` as an absolute
instant (seconds since the epoch); `off` is the zone's UTC offset.
Out-of-range hours/minutes normalize arithmetically, exactly as Go. -/
def timeDate (y m d hh mm off : Int) : Int :=
  dateToDays y m d * 86400 + hh * 3600 + mm * 60 - off

/-! ### Decimal rendering helpers (model of Go `Format` / `Sprintf`) -/

def pad2 (n : Nat) : String :=
  if n < 10 then "0" ++ toString n else toString n

def pad4 (n : Nat) : String :=
  if n < 10 then "000" ++ toString n
  else if n < 100 then "00" ++ toString n
  else if n < 1000 then "0" ++ toString n
  else toString n

/-- Render `y-m-d` in Go layout `"2006-01-02"` (for nonnegative years). -/
def fmtYMD (y m d : Int) : String :=
  pad4 y.toNat ++ "-" ++ pad2 m.toNat ++ "-" ++ pad2 d.toNat

/-- Layout `"2006-01-02"` of the instant `t` in the zone at offset `off`. -/
def fmtDate (t off : Int) : String :=
  let lt := t + off
  let days := Int.fdiv lt 86400
  let c := civilFromDays days
  fmtYMD c.1 c.2.1 c.2.2

/-- Numeric zone suffix of layout `"Z07:00"`. -/
def offsetStr (off : Int) : String :=
  if off == 0 then "Z"
  else
    let sign := if off < 0 then "-" else "+"
    let a := off.natAbs
    sign ++ pad2 (a / 3600) ++ ":" ++ pad2 (a % 3600 / 60)

/-- Model of Go `Format(time.RFC3339)` of the instant `t` in the zone at
offset `off`. -/
def fmtRFC3339 (t off : Int) : String :=
  let lt := t + off
  let days := Int.fdiv lt 86400
  let secs := (lt - 86400 * days).toNat
  let c := civilFromDays days
  fmtYMD c.1 c.2.1 c.2.2 ++ "T" ++ pad2 (secs / 3600) ++ ":" ++
    pad2 (secs / 60 % 60) ++ ":" ++ pad2 (secs % 60) ++ offsetStr off

/-! ### Digit scanning and `strconv.Atoi` -/

def digitVal (c : Char) : Nat := c.toNat - 48

def isDigitCh (c : Char) : Bool := '0' ≤ c && c ≤ '9'

/-- Read exactly `n` decimal digits, accumulating into `acc`. -/
def readDigits : Nat → Nat → List Char → Option (Nat × List Char)
  | 0, acc, cs => some (acc, cs)
  | _ + 1, _, [] => none
  | n + 1, acc, c :: cs =>
    if isDigitCh c then readDigits n (acc * 10 + digitVal c) cs else none

/-- Exactly `n` digits from the front of `cs`. -/
def digitsN (n : Nat) (cs : List Char) : Option (Nat × List Char) :=
  readDigits n 0 cs

/-- Value of a nonempty all-digit character list. -/
def natOfDigits (cs : List Char) : Nat :=
  cs.foldl (fun acc c => acc * 10 + digitVal c) 0

/-- Model of Go `strconv.Atoi`: optional sign, then one or more digits,
nothing else; `none` models a non-nil error. -/
def atoi (s : String) : Option Int :=
  match s.data with
  | [] => none
  | '+' :: rest =>
    if rest ≠ [] ∧ rest.all isDigitCh then some (Int.ofNat (natOfDigits rest)) else none
  | '-' :: rest =>
    if rest ≠ [] ∧ rest.all isDigitCh then some (-(Int.ofNat (natOfDigits rest))) else none
  | cs =>
    if cs.all isDigitCh then some (Int.ofNat (natOfDigits cs)) else none

/-- Go `Atoi` with its error discarded (`r, _ := strconv.Atoi(s)`):
the zero value stands in on error. -/
def atoiOr0 (s : String) : Int :=
  match atoi s with
  | some v => v
  | none => 0

/-- Model of `regexp.MustCompile("^\\d+").FindString`: the (possibly
empty) maximal leading digit run. -/
def leadingDigits (s : String) : String :=
  String.mk (s.data.takeWhile isDigitCh)

/-! ### Models of `time.Parse` for the two layouts used by
`DeleteUpcomingEvents`: `time.RFC3339` and `"2006-01-02"`.  Go validates
component ranges and requires the whole value to be consumed; `none`
models a non-nil parse error.  The result is an absolute instant. -/

/-- Model of `time.Parse("2006-01-02", s)` (midnight UTC on success). -/
def parseDateOnly (s : String) : Option Int :=
  match digitsN 4 s.data with
  | none => none
  | some (y, cs1) =>
    match cs1 with
    | '-' :: cs2 =>
      match digitsN 2 cs2 with
      | none => none
      | some (m, cs3) =>
        match cs3 with
        | '-' :: cs4 =>
          match digitsN 2 cs4 with
          | some (d, []) =>
            if 1 ≤ m ∧ m ≤ 12 ∧ 1 ≤ d ∧ d ≤ daysInMonth (Int.ofNat y) m then
              some (86400 * daysFromCivil (Int.ofNat y) (Int.ofNat m) (Int.ofNat d))
            else none
          | _ => none
        | _ => none
    | _ => none

/-- Zone suffix of layout `Z07:00`: `Z`, or a signed `hh:mm` offset in
seconds; must consume the rest of the input. -/
def parseZone (cs : List Char) : Option Int :=
  match cs with
  | ['Z'] => some 0
  | sign :: rest =>
    if sign = '+' ∨ sign = '-' then
      match digitsN 2 rest with
      | some (oh, ':' :: rest2) =>
        match digitsN 2 rest2 with
        | some (om, []) =>
          let a : Int := Int.ofNat (oh * 3600 + om * 60)
          some (if sign = '-' then -a else a)
        | _ => none
      | _ => none
    else none
  | _ => none

/-- Model of `time.Parse(time.RFC3339, s)` as an absolute instant. -/
def parseRFC3339 (s : String) : Option Int :=
  match digitsN 4 s.data with
  | none => none
  | some (y, cs1) =>
    match cs1 with
    | '-' :: cs2 =>
      match digitsN 2 cs2 with
      | none => none
      | some (m, cs3) =>
        match cs3 with
        | '-' :: cs4 =>
          match digitsN 2 cs4 with
          | none => none
          | some (d, cs5) =>
            match cs5 with
            | 'T' :: cs6 =>
              match digitsN 2 cs6 with
              | none => none
              | some (hh, cs7) =>
                match cs7 with
                | ':' :: cs8 =>
                  match digitsN 2 cs8 with
                  | none => none
                  | some (mi, cs9) =>
                    match cs9 with
                    | ':' :: cs10 =>
                      match digitsN 2 cs10 with
                      | none => none
                      | some (ss, cs11) =>
                        match parseZone cs11 with
                        | none => none
                        | some off =>
                          if 1 ≤ m ∧ m ≤ 12 ∧ 1 ≤ d ∧ d ≤ daysInMonth (Int.ofNat y) m ∧
                             hh ≤ 23 ∧ mi ≤ 59 ∧ ss ≤ 59 then
                            some (86400 * daysFromCivil (Int.ofNat y) (Int.ofNat m) (Int.ofNat d) +
                                  Int.ofNat (hh * 3600 + mi * 60 + ss) - off)
                          else none
                    | _ => none
                | _ => none
            | _ => none
        | _ => none
    | _ => none

/-! ### Regex models

Each regular expression of `main.go` is modelled by a dedicated scanner
with leftmost-match semantics (as in Go's RE2 engine). -/

/-- Does `p` occur as a prefix of `cs`? -/
def isPrefixOf : List Char → List Char → Bool
  | [], _ => true
  | _ :: _, [] => false
  | p :: ps, c :: cs => p == c && isPrefixOf ps cs

/-- Does `pat` occur as a substring of `s`?  This is
`regexp.MatchString(pat, s)` for a pattern of plain literal characters. -/
def containsSub (pat s : String) : Bool :=
  go s.data
where
  go : List Char → Bool
    | [] => isPrefixOf pat.data []
    | c :: cs => isPrefixOf pat.data (c :: cs) || go cs

/-- The rate-limit test of `Upsert`/`DeleteEvent`:
`regexp.MatchString("403: Rate Limit Exceeded", err.Error())`. -/
def isRateLimit (msg : String) : Bool :=
  containsSub "403: Rate Limit Exceeded" msg

/-- One or two digits followed by a literal dot (the `(\d{1,2})\.` part
of the date-token regex, with RE2's greedy preference for two digits). -/
def digits12Dot (cs : List Char) : Option (Nat × List Char) :=
  match digitsN 2 cs with
  | some (v, '.' :: rest) => some (v, rest)
  | _ =>
    match digitsN 1 cs with
    | some (v, '.' :: rest) => some (v, rest)
    | _ => none

/-- One or two digits at the end of the pattern (`(\d{1,2})`, greedy). -/
def digits12End (cs : List Char) : Option Nat :=
  match digitsN 2 cs with
  | some (v, _) => some v
  | none =>
    match digitsN 1 cs with
    | some (v, _) => some v
    | none => none

/-- Match `Date=da\.(\d{4})\.(\d{1,2})\.(\d{1,2})` at this position. -/
def matchDateAt (cs : List Char) : Option (Nat × Nat × Nat) :=
  if isPrefixOf "Date=da.".data cs then
    let rest := cs.drop 8
    match digitsN 4 rest with
    | some (y, '.' :: rest2) =>
      match digits12Dot rest2 with
      | some (m, rest3) =>
        match digits12End rest3 with
        | some d => some (y, m, d)
        | none => none
      | none => none
    | _ => none
  else none

/-- Scan helper: first position where `matchDateAt` succeeds. -/
def findDateTokenAux : List Char → Option (Nat × Nat × Nat)
  | [] => none
  | c :: cs =>
    match matchDateAt (c :: cs) with
    | some r => some r
    | none => findDateTokenAux cs

/-- Model of
`regexp.MustCompile("Date=da\\.(\\d{4})\\.(\\d{1,2})\\.(\\d{1,2})").FindStringSubmatch(href)`:
the `(year, month, day)` captures of the leftmost match, or `none` when
the regex does not match (in which case Go returns a nil slice). -/
def findDateToken (href : String) : Option (Nat × Nat × Nat) :=
  findDateTokenAux href.data

/-- Match `sEID=([\d]+)` at this position: the literal `sEID=` followed
by a maximal nonempty digit run. -/
def matchSEIDAt (cs : List Char) : Option String :=
  if isPrefixOf "sEID=".data cs then
    let rest := cs.drop 5
    let ds := rest.takeWhile isDigitCh
    if ds ≠ [] then some (String.mk ds) else none
  else none

/-- Scan helper: first position where `matchSEIDAt` succeeds. -/
def findSEIDAux : List Char → Option String
  | [] => none
  | c :: cs =>
    match matchSEIDAt (c :: cs) with
    | some r => some r
    | none => findSEIDAux cs

/-- Model of
`regexp.MustCompile("sEID=([\\d]+)").FindStringSubmatch(href)`: the
digit capture of the leftmost match, or `none` for Go's nil slice. -/
def findSEID (href : String) : Option String :=
  findSEIDAux href.data

/-- Model of the anchored title regex
`^(\d{2}):(\d{2})(?:-(\d{2}):(\d{2}))?` applied to the event title.
On a match it returns the four captured groups as strings — the
optional end groups are `""` when absent, exactly as Go's submatch
slice — together with the title with the matched prefix removed
(`ReplaceAllString(title, "")`).  `none` means no match, in which case
the title is left unchanged by the replacement. -/
def eventTimeSplit (title : String) : Option (String × String × String × String) × String :=
  let cs := title.data
  match digitsN 2 cs with
  | some (_, ':' :: cs2) =>
    match digitsN 2 cs2 with
    | some (_, cs3) =>
      let shS := String.mk (cs.take 2)
      let smS := String.mk (cs2.take 2)
      match cs3 with
      | '-' :: cs4 =>
        match digitsN 2 cs4 with
        | some (_, ':' :: cs5) =>
          match digitsN 2 cs5 with
          | some (_, cs6) =>
            (some (shS, smS, String.mk (cs4.take 2), String.mk (cs5.take 2)), String.mk cs6)
          | none => (some (shS, smS, "", ""), String.mk cs3)
        | _ => (some (shS, smS, "", ""), String.mk cs3)
      | _ => (some (shS, smS, "", ""), String.mk cs3)
    | none => (none, title)
  | _ => (none, title)

/-! ### Calendar event data model (`calendar.Event` as used here) -/

/-- The fields of `calendar.EventDateTime` the program sets; an unset
string field is `""` (Go's zero value). -/
structure EventDateTime where
  Date : String
  DateTime : String
  TimeZone : String
  deriving DecidableEq, Repr

/-- The fields of `calendar.Event` the program sets. -/
structure CalEvent where
  Id : String
  Summary : String
  Start : EventDateTime
  End : EventDateTime
  deriving DecidableEq, Repr

/-! ### Event-id derivation

Both extraction paths derive the remote event id as
`sEID-capture + fmt.Sprintf("%d%d%d", year, month, day)` — decimal with
no zero padding. -/

/-- Id formula at `main.go:280` (`updateEvent`). -/
def eventIdUpdate (seid : String) (y m d : Int) : String :=
  seid ++ toString y ++ toString m ++ toString d

/-- Id formula at `main.go:220` (`updateBannerEvent`). -/
def eventIdBanner (seid : String) (y m d : Int) : String :=
  seid ++ toString y ++ toString m ++ toString d

/-! ### `updateEvent` (main.go:258-331) -/

/-- Time normalization of `updateEvent` (main.go:294-306): the captured
hour/minute strings are `Atoi`-ed; a failing end-hour parse (empty
capture) defaults to `startHour + 1`, a failing end-minute parse
defaults to `startMin`; both instants are built with `time.Date` on the
event's date.  Returns `(start, end)`. -/
def normTimed (y m d : Int) (shS smS ehS emS : String) : Int × Int :=
  let startHour := atoiOr0 shS
  let startMin := atoiOr0 smS
  let startI := timeDate y m d startHour startMin tokyoOff
  let endHour := match atoi ehS with
    | some v => v
    | none => startHour + 1
  let endMin := match atoi emS with
    | some v => v
    | none => startMin
  let endI := timeDate y m d endHour endMin tokyoOff
  (startI, endI)

/-- Event construction of `updateEvent` after the date, id and title
have been extracted (main.go:283-324): strip a leading time range from
the title; with a time range build a timed event from `normTimed`
rendered as RFC3339; otherwise build an all-day event on the date. -/
def buildTimedOrAllDay (y m d : Int) (seid title : String) : CalEvent :=
  let eventId := eventIdUpdate seid y m d
  let et := eventTimeSplit title
  let title2 := et.2
  match et.1 with
  | some (shS, smS, ehS, emS) =>
    let se := normTimed y m d shS smS ehS emS
    { Id := eventId, Summary := title2,
      Start := { Date := "", DateTime := fmtRFC3339 se.1 tokyoOff, TimeZone := "Asia/Tokyo" },
      End := { Date := "", DateTime := fmtRFC3339 se.2 tokyoOff, TimeZone := "Asia/Tokyo" } }
  | none =>
    let date := fmtDate (timeDate y m d 0 0 tokyoOff) tokyoOff
    { Id := eventId, Summary := title2,
      Start := { Date := date, DateTime := "", TimeZone := "Asia/Tokyo" },
      End := { Date := date, DateTime := "", TimeZone := "Asia/Tokyo" } }

/-- Outcome of processing one `.event` element. -/
inductive UpdateOutcome where
  /-- A Go run-time panic: an index into the nil slice returned by a
  failed `FindStringSubmatch` (main.go:262 or main.go:280). -/
  | panicked
  /-- The element was skipped because its date is more than a week old
  (main.go:273-276). -/
  | skippedOld
  /-- An event was built and passed to `Upsert` (main.go:326). -/
  | upsert (e : CalEvent)
  deriving DecidableEq, Repr

/-- Model of `updateEvent` (main.go:258-331) on one extracted element:
`href` is the element's anchor href, `title` its `.eventTitle` text,
`now` the wall-clock instant.  Mirrors the source order: date-token
regex (panics on a nil match), the `Atoi` calls (which cannot fail on
regex-guaranteed digit captures, so the dead `err` check is omitted),
the one-week look-back filter, then the sEID regex (panics on a nil
match) and event construction. -/
def updateEventModel (now : Int) (href title : String) : UpdateOutcome :=
  match findDateToken href with
  | none => .panicked
  | some (y, m, d) =>
    let yi : Int := Int.ofNat y
    let mi : Int := Int.ofNat m
    let di : Int := Int.ofNat d
    let dateTime := timeDate yi mi di 0 0 tokyoOff
    if dateTime < now - 7 * 86400 then .skippedOld
    else
      match findSEID href with
      | none => .panicked
      | some seid => .upsert (buildTimedOrAllDay yi mi di seid title)

/-! ### `updateBannerEvent` and `selectedIntValue` (main.go:188-256) -/

/-- Model of `selectedIntValue` (main.go:242-256).  The input is the
text of the option carrying the `selected` attribute in the named
dropdown, or `none` when no option is selected.  When an option is
found, its leading digit run is `Atoi`-ed with the error discarded
(`r, _ = strconv.Atoi(...)`), so a digit-free text yields 0; when none
is found the function returns an error (modelled as `none`). -/
def selectedIntValue (sel : Option String) : Option Int :=
  match sel with
  | some txt => some (atoiOr0 (leadingDigits txt))
  | none => none

/-- The value Go leaves in the result variable when `selectedIntValue`
errors: the zero value. -/
def sivVal (sel : Option String) : Int :=
  match selectedIntValue sel with
  | some v => v
  | none => 0

/-- Model of the date-resolution and event-construction core of
`updateBannerEvent` (main.go:200-233).  The six arguments are the
selected-option texts of the dropdowns `SetDate.Year`, `SetDate.Month`,
`SetDate.Day`, `EndDate.Year`, `EndDate.Month`, `EndDate.Day`; `seid`
is the `sEID` capture from the href and `title` the element's title
attribute.  Faithful to the source, each `selectedIntValue` call
reassigns the same `err` variable, so only the `EndDate.Day` error
survives to the `if err != nil` check: the event is skipped (`none`)
exactly when the end-day dropdown is unresolved, and any earlier
failure silently contributes a zero component. -/
def updateBannerModel (sy smo sd ey emo ed : Option String)
    (seid title : String) : Option CalEvent :=
  let startYear := sivVal sy
  let startMonth := sivVal smo
  let startDay := sivVal sd
  let endYear := sivVal ey
  let endMonth := sivVal emo
  match selectedIntValue ed with
  | none => none
  | some endDay =>
    let startDateTime := timeDate startYear startMonth startDay 0 0 tokyoOff
    let endDateTime := timeDate endYear endMonth endDay 0 0 tokyoOff
    let startDate := fmtDate startDateTime tokyoOff
    let endDate := fmtDate endDateTime tokyoOff
    let eventId := eventIdBanner seid startYear startMonth startDay
    some { Id := eventId, Summary := title,
           Start := { Date := startDate, DateTime := "", TimeZone := "Asia/Tokyo" },
           End := { Date := endDate, DateTime := "", TimeZone := "Asia/Tokyo" } }

/-! ### `DeleteUpcomingEvents` (main.go:145-173) -/

/-- Model of `tommorow := time.Now().AddDate(0, 0, 1)`: one civil day
after `now` (a fixed 86400 seconds in a fixed-offset zone). -/
def tomorrowOf (now : Int) : Int := now + 86400

/-- Per-item deletion decision of `DeleteUpcomingEvents`
(main.go:156-163), applied to the item's `Start.DateTime` string:
keep (`false`) when the string parses as RFC3339 to an instant before
`tomorrow`, or parses as a plain `"2006-01-02"` date before `tomorrow`;
otherwise delete (`true`). -/
def deleteUpcomingDecision (tomorrow : Int) (startDateTime : String) : Bool :=
  let keep1 := match parseRFC3339 startDateTime with
    | some startTime => startTime < tomorrow
    | none => false
  let keep2 := match parseDateOnly startDateTime with
    | some startDate => startDate < tomorrow
    | none => false
  !keep1 && !keep2

/-! ### `Upsert` and `DeleteEvent` retry loops (main.go:128-143, 175-186)

The remote API is modelled by a trace of call results: each `Upsert`
attempt consumes one `(update, insert)` result pair, each `DeleteEvent`
attempt one delete result.  An exhausted trace while still retrying is
`pending` (the unbounded recursion has not returned yet). -/

/-- Result of one remote API call: success, or an error message. -/
inductive CallResult where
  | ok
  | err (msg : String)
  deriving DecidableEq, Repr

/-- The remote results seen by one `Upsert` attempt: the `Update` call,
then (only reached when `Update` failed) the `Insert` call. -/
structure UpsertAttempt where
  update : CallResult
  insert : CallResult
  deriving DecidableEq, Repr

/-- Final outcome of a retrying operation. -/
inductive SyncResult where
  | success
  | failure (msg : String)
  /-- The trace ran out while the operation was still retrying. -/
  | pending
  deriving DecidableEq, Repr

/-- Model of `GoogleCalendar.Upsert` (main.go:128-143) over a trace of
attempt results: if `Update` succeeds, done; otherwise `Insert` is
tried; an `Insert` error matching the rate-limit pattern sleeps and
recurses on the rest of the trace; any other `Insert` error is
returned. -/
def upsertModel : List UpsertAttempt → SyncResult
  | [] => .pending
  | a :: rest =>
    match a.update with
    | .ok => .success
    | .err _ =>
      match a.insert with
      | .ok => .success
      | .err m => if isRateLimit m then upsertModel rest else .failure m

/-- Model of `GoogleCalendar.DeleteEvent` (main.go:175-186) over a
trace of delete-call results: a rate-limit error sleeps and recurses;
any other result (success or error) is returned. -/
def deleteEventModel : List CallResult → SyncResult
  | [] => .pending
  | r :: rest =>
    match r with
    | .ok => .success
    | .err m => if isRateLimit m then deleteEventModel rest else .failure m

/-! ### `getAGSESSID` cookie scan (main.go:346-355) -/

/-- Model of Go `strings.Split(s, ";")` (note `Split("", ";") = [""]`). -/
def splitSemi : List Char → List (List Char)
  | [] => [[]]
  | ';' :: rest => [] :: splitSemi rest
  | c :: rest =>
    match splitSemi rest with
    | h :: t => (c :: h) :: t
    | [] => [[c]]

/-- Model of Go `strings.SplitN(cookie, "=", 2)`: one element when the
separator is absent, otherwise the parts before and after the first
`=`. -/
def splitEq2 : List Char → List (List Char)
  | [] => [[]]
  | '=' :: rest => [[], rest]
  | c :: rest =>
    match splitEq2 rest with
    | [x] => [c :: x]
    | x :: t => (c :: x) :: t
    | [] => [[c]]

/-- Outcome of the cookie scan of `getAGSESSID`. -/
inductive CookieScan where
  /-- Go run-time panic: `pair[1]` indexes past the end of the
  one-element slice returned by `SplitN` on a segment without `=`. -/
  | panicked
  /-- `AGSESSID` found; its value is returned. -/
  | found (v : String)
  /-- Loop finished: the `cannot get AGSESSID` error is returned. -/
  | notFound
  deriving DecidableEq, Repr

/-- The loop body of `getAGSESSID` over the split cookie segments. -/
def scanCookies : List (List Char) → CookieScan
  | [] => .notFound
  | cookie :: rest =>
    match splitEq2 cookie with
    | [_] => .panicked
    | k :: v :: _ =>
      if String.mk k = "AGSESSID" then .found (String.mk v) else scanCookies rest
    | [] => .panicked

/-- Model of the cookie-extraction part of `getAGSESSID`
(main.go:346-355), applied to the `Set-Cookie` header value. -/
def getAGSESSIDModel (header : String) : CookieScan :=
  scanCookies (splitSemi header.data)

/-! ### Helper lemmas -/

theorem atoi_nil : atoi "" = none := rfl

theorem dateToDays_shift (y m d : Int) : dateToDays y m d = dateToDays y m 0 + d := by
  simp only [dateToDays]
  ring

theorem isLeap_iff (y : Int) :
    isLeap y = true ↔ ((y % 4 = 0 ∧ ¬ (y % 100 = 0)) ∨ y % 400 = 0) := by
  simp [isLeap]

theorem monthDoy_one : monthDoy 1 = 306 := by decide

theorem monthDoy_two : monthDoy 2 = 337 := by decide

theorem monthDoy_three : monthDoy 3 = 0 := by decide

theorem monthDoy_four : monthDoy 4 = 31 := by decide

theorem monthDoy_five : monthDoy 5 = 61 := by decide

theorem monthDoy_six : monthDoy 6 = 92 := by decide

theorem monthDoy_seven : monthDoy 7 = 122 := by decide

theorem monthDoy_eight : monthDoy 8 = 153 := by decide

theorem monthDoy_nine : monthDoy 9 = 184 := by decide

theorem monthDoy_ten : monthDoy 10 = 214 := by decide

theorem monthDoy_eleven : monthDoy 11 = 245 := by decide

theorem monthDoy_twelve : monthDoy 12 = 275 := by decide

/-- The era/year-of-era part of `daysFromCivil` in closed form over
euclidean division, for a nonnegative shifted year. -/
theorem eraDays_eq (t : Int) (ht : 0 ≤ t) :
    Int.tdiv t 400 * 146097 +
      ((t - Int.tdiv t 400 * 400) * 365 + Int.tdiv (t - Int.tdiv t 400 * 400) 4
        - Int.tdiv (t - Int.tdiv t 400 * 400) 100) =
    365 * t + t / 4 - t / 100 + t / 400 := by
  rw [Int.tdiv_eq_ediv ht (by norm_num)]
  have h1 : 0 ≤ t - t / 400 * 400 := by omega
  rw [Int.tdiv_eq_ediv h1 (by norm_num), Int.tdiv_eq_ediv h1 (by norm_num)]
  omega

/-- Closed form of `daysFromCivil` for a nonnegative shifted year. -/
theorem daysFromCivil_eq (y m d : Int) (hy : 0 ≤ y - (if m ≤ 2 then 1 else 0)) :
    daysFromCivil y m d =
      365 * (y - (if m ≤ 2 then 1 else 0)) + (y - (if m ≤ 2 then 1 else 0)) / 4
        - (y - (if m ≤ 2 then 1 else 0)) / 100 + (y - (if m ≤ 2 then 1 else 0)) / 400
        + monthDoy m + d - 1 - 719468 := by
  have h := eraDays_eq (y - (if m ≤ 2 then 1 else 0)) hy
  simp only [daysFromCivil, monthDoy]
  rw [if_pos hy]
  linarith [h]

/-- Closed form of `daysFromCivil` with the March shift expressed
arithmetically: for `1 ≤ m ≤ 12` the shift `if m ≤ 2 then 1 else 0`
equals `(14 - m) / 12`. -/
theorem daysFromCivil_eq2 (y m d : Int) (hm1 : 1 ≤ m) (hm2 : m ≤ 12) (hy : 1 ≤ y) :
    daysFromCivil y m d =
      365 * (y - (14 - m) / 12) + (y - (14 - m) / 12) / 4
        - (y - (14 - m) / 12) / 100 + (y - (14 - m) / 12) / 400
        + monthDoy m + d - 1 - 719468 := by
  have hite : (if m ≤ 2 then (1 : Int) else 0) = (14 - m) / 12 := by
    split_ifs with h <;> omega
  have hy2 : 0 ≤ y - (if m ≤ 2 then (1 : Int) else 0) := by split_ifs <;> omega
  rw [daysFromCivil_eq y m d hy2, hite]

/-- Calendar (lexicographic) order on valid civil dates implies order
of their day counts: the start date `(sy, smo, sd)` must be a real
calendar date (positive year, month in `1..12`, day within the month);
the end date needs only positive components, months in range. -/
theorem daysFromCivil_le_of_dateLex (sy smo sd ey emo ed : Int)
    (hsy : 1 ≤ sy) (hsmo1 : 1 ≤ smo) (hsmo2 : smo ≤ 12)
    (hsd1 : 1 ≤ sd) (hsd2 : sd ≤ ((daysInMonth sy smo.toNat : Nat) : Int))
    (hey : 1 ≤ ey) (hemo1 : 1 ≤ emo) (hemo2 : emo ≤ 12) (hed1 : 1 ≤ ed)
    (hlex : sy < ey ∨ (sy = ey ∧ (smo < emo ∨ (smo = emo ∧ sd ≤ ed)))) :
    daysFromCivil sy smo sd ≤ daysFromCivil ey emo ed := by
  have hFeb : smo = 2 →
      sd ≤ 28 ∨ (sd ≤ 29 ∧ ((sy % 4 = 0 ∧ ¬ (sy % 100 = 0)) ∨ sy % 400 = 0)) := by
    intro h2
    rw [h2] at hsd2
    simp [daysInMonth] at hsd2
    by_cases hL : isLeap sy = true
    · rw [if_pos hL] at hsd2
      right
      exact ⟨by omega, (isLeap_iff sy).mp hL⟩
    · rw [if_neg hL] at hsd2
      left
      omega
  have h30 : smo = 4 ∨ smo = 6 ∨ smo = 9 ∨ smo = 11 → sd ≤ 30 := by
    rintro (h | h | h | h) <;> rw [h] at hsd2 <;> simp [daysInMonth] at hsd2 <;> omega
  have hub : sd ≤ 31 := by
    have h31 : ((daysInMonth sy smo.toNat : Nat) : Int) ≤ 31 := by
      unfold daysInMonth
      split_ifs <;> norm_num
    omega
  clear hsd2
  rw [daysFromCivil_eq2 sy smo sd hsmo1 hsmo2 hsy,
      daysFromCivil_eq2 ey emo ed hemo1 hemo2 hey]
  interval_cases smo <;> interval_cases emo <;>
    simp only [monthDoy_one, monthDoy_two, monthDoy_three, monthDoy_four, monthDoy_five,
      monthDoy_six, monthDoy_seven, monthDoy_eight, monthDoy_nine, monthDoy_ten,
      monthDoy_eleven, monthDoy_twelve] <;>
    omega

/-- For months in `1..12` the `time.Date` month normalization is the
identity, so `dateToDays` agrees with `daysFromCivil`. -/
theorem dateToDays_eq_daysFromCivil (y m d : Int) (h1 : 1 ≤ m) (h2 : m ≤ 12) :
    dateToDays y m d = daysFromCivil y m d := by
  have hc : Int.fdiv (m - 1) 12 = 0 := by
    rw [Int.fdiv_eq_ediv _ (by norm_num)]
    omega
  simp only [dateToDays]
  rw [hc]
  have hm : m - 1 - 12 * 0 + 1 = m := by ring
  rw [hm, add_zero]
  simp only [daysFromCivil]
  ring

/-- A successful `updateEventModel` run factors through the extracted
date token, the extracted sEID, and `buildTimedOrAllDay`. -/
theorem updateEventModel_upsert_build {now : Int} {href title : String} {e : CalEvent}
    (h : updateEventModel now href title = UpdateOutcome.upsert e) :
    ∃ y m d seid, findDateToken href = some (y, m, d) ∧ findSEID href = some seid ∧
      e = buildTimedOrAllDay (Int.ofNat y) (Int.ofNat m) (Int.ofNat d) seid title := by
  unfold updateEventModel at h
  cases hd : findDateToken href with
  | none => rw [hd] at h; exact absurd h (by simp)
  | some ymd =>
    obtain ⟨y, m, d⟩ := ymd
    rw [hd] at h
    simp only at h
    split at h
    · exact absurd h (by simp)
    · cases hs : findSEID href with
      | none => rw [hs] at h; exact absurd h (by simp)
      | some seid =>
        rw [hs] at h
        simp only [UpdateOutcome.upsert.injEq] at h
        exact ⟨y, m, d, seid, rfl, rfl, h.symm⟩

/-! ### Concrete inputs used by the individual claims -/

/-- Run instant for the C1 deletion scenario: 2025-10-11T12:00:00Z. -/
def c1now : Int := 86400 * daysFromCivil 2025 10 11 + 12 * 3600

/-- The `tommorow` boundary computed from `c1now`. -/
def c1tomorrow : Int := tomorrowOf c1now

def c2href : String := "/ag.cgi?page=ScheduleView&Date=da.2025.10.20&sEID=42"

def c2ev : CalEvent :=
  { Id := "4220251020", Summary := "Lunch",
    Start := ⟨"2025-10-20", "", "Asia/Tokyo"⟩,
    End := ⟨"2025-10-20", "", "Asia/Tokyo"⟩ }

def c3href : String := "/ag.cgi?page=ScheduleView&Date=da.2025.10.20&sEID=500"

def c3now : Int := timeDate 2025 10 20 0 0 tokyoOff

def c3event : CalEvent :=
  { Id := "50020251020", Summary := " Foo",
    Start := ⟨"", "2025-10-20T10:00:00+09:00", "Asia/Tokyo"⟩,
    End := ⟨"", "2025-10-20T09:00:00+09:00", "Asia/Tokyo"⟩ }

def c3startI : Int := timeDate 2025 10 20 10 0 tokyoOff

def c3endI : Int := timeDate 2025 10 20 9 0 tokyoOff

def c4href : String := "/ag.cgi?page=ScheduleView&Date=da.2025.11.5&sEID=77"

def c4now : Int := timeDate 2025 11 5 0 0 tokyoOff

def c4timed : CalEvent :=
  { Id := "772025115", Summary := " Lunch",
    Start := ⟨"", "2025-11-05T14:00:00+09:00", "Asia/Tokyo"⟩,
    End := ⟨"", "2025-11-05T15:30:00+09:00", "Asia/Tokyo"⟩ }

def c4allday : CalEvent :=
  { Id := "772025115", Summary := "Party",
    Start := ⟨"2025-11-05", "", "Asia/Tokyo"⟩,
    End := ⟨"2025-11-05", "", "Asia/Tokyo"⟩ }

def c6now : Int := timeDate 2025 10 20 0 0 tokyoOff

def c7event : CalEvent :=
  { Id := "9901020", Summary := "Trip",
    Start := ⟨"0000-10-20", "", "Asia/Tokyo"⟩,
    End := ⟨"2025-10-21", "", "Asia/Tokyo"⟩ }

/-- A rate-limit error message as produced by the Google API client. -/
def rlMsg : String := "googleapi: Error 403: Rate Limit Exceeded, rateLimitExceeded"

/-- A non-rate-limit remote error message. -/
def dupMsg : String := "googleapi: Error 409: Requested identifier already exists"

/-! ### Claim theorems -/

/-- C2: the derived event id is a pure deterministic function of
`(sourceID, year, month, day)`: the timed path (main.go:280) and the
banner path (main.go:220) compute the identical id string from the same
inputs, and two `updateEvent` runs at different wall-clock times over
the same element yield the same id, so a repeated sync upserts the same
remote record. -/
theorem spec_C2 :
    (∀ seid y m d, eventIdUpdate seid y m d = eventIdBanner seid y m d) ∧
    (∀ now now2 href title e e2,
      updateEventModel now href title = UpdateOutcome.upsert e →
      updateEventModel now2 href title = UpdateOutcome.upsert e2 →
      e.Id = e2.Id) := by
  constructor
  · intro seid y m d
    rfl
  · intro now now2 href title e e2 h1 h2
    obtain ⟨y, m, d, s1, hd1, hs1, he1⟩ := updateEventModel_upsert_build h1
    obtain ⟨y2, m2, d2, s2, hd2, hs2, he2⟩ := updateEventModel_upsert_build h2
    rw [hd1, Option.some.injEq] at hd2
    rw [hs1, Option.some.injEq] at hs2
    simp only [Prod.mk.injEq] at hd2
    obtain ⟨rfl, rfl, rfl⟩ := hd2
    rw [he1, he2, hs2]

/-- C2 witness: two runs over the same element, a day apart, upsert the
event with the same id. -/
theorem spec_C2_witness :
    updateEventModel 0 c2href "Lunch" = UpdateOutcome.upsert c2ev ∧
    updateEventModel 86400 c2href "Lunch" = UpdateOutcome.upsert c2ev ∧
    c2ev.Id = c2ev.Id :=
  ⟨by decide, by decide,
    spec_C2.2 0 86400 c2href "Lunch" c2ev c2ev (by decide) (by decide)⟩

/-- C9: the id derivation is not injective: sourceID `"1"` with dates
2025-01-23 and 2025-12-03 — distinct `(month, day)` components — both
yield the id `"12025123"`, so two distinct source events upsert the
same remote record. -/
theorem spec_C9 :
    eventIdUpdate "1" 2025 1 23 = eventIdUpdate "1" 2025 12 3 ∧
    eventIdUpdate "1" 2025 1 23 = "12025123" ∧
    ¬ ((1 : Int), (23 : Int)) = ((12 : Int), (3 : Int)) := by
  decide

/-- C10: the cookie extraction of `getAGSESSID` assumes every
semicolon-delimited `Set-Cookie` segment contains `=`: on a header whose
first segment is the bare attribute `HttpOnly`, the two-way split yields
a one-element slice and `pair[1]` panics with an out-of-range index
instead of returning an authentication error. -/
theorem spec_C10 :
    splitEq2 "HttpOnly".data = ["HttpOnly".data] ∧
    getAGSESSIDModel "HttpOnly; AGSESSID=x" = CookieScan.panicked ∧
    getAGSESSIDModel "AGSESSID=abc; HttpOnly" = CookieScan.found "abc" := by
  decide

/-- C6: contrary to the claim, an element whose href lacks the
`Date=da.YYYY.MM.DD` token (or, for a non-old date, the `sEID=` token)
is not skipped with a diagnostic: `FindStringSubmatch` returns a nil
slice and indexing it panics, crashing the goroutine and with it the
process. -/
theorem spec_C6_bug :
    findDateToken "/ag.cgi?page=ScheduleView&sEID=123" = none ∧
    updateEventModel c6now "/ag.cgi?page=ScheduleView&sEID=123" "Foo" =
      UpdateOutcome.panicked ∧
    findSEID "/ag.cgi?page=ScheduleView&Date=da.2025.10.20" = none ∧
    updateEventModel c6now "/ag.cgi?page=ScheduleView&Date=da.2025.10.20" "Foo" =
      UpdateOutcome.panicked := by
  decide

/-- C7: contrary to the claim, only the `EndDate.Day` dropdown is
guarded: the six `err` assignments shadow one another and the single
`if err != nil` check sees only the last.  With `SetDate.Year`
unresolved but `EndDate.Day` resolved, the banner event is not skipped —
it is built with start year 0 (date `0000-10-20`) and upserted.  The
skip does fire when `EndDate.Day` itself is unresolved. -/
theorem spec_C7_bug :
    selectedIntValue none = none ∧
    updateBannerModel none (some "10") (some "20") (some "2025") (some "10")
      (some "21") "99" "Trip" = some c7event ∧
    c7event.Start.Date = "0000-10-20" ∧
    updateBannerModel (some "2025") (some "10") (some "20") (some "2025") (some "10")
      none "99" "Trip" = none := by
  decide

/-- C4 counterexample: the time-range prefix `14:00-15:30` is stripped
from the title, but the separating space is not part of the match, so
the stored title is `" Lunch"` — not exactly `"Lunch"` as the claim
states. -/
theorem spec_C4_counterexample :
    updateEventModel c4now c4href "14:00-15:30 Lunch" = UpdateOutcome.upsert c4timed ∧
    c4timed.Summary = " Lunch" ∧
    ¬ c4timed.Summary = "Lunch" := by
  decide

/-- C4 (amended): normalizing `"14:00-15:30 Lunch"` yields start
14:00 and end 15:30 on the event's date and the stored title
`" Lunch"` (the leading time range stripped, the separating space
retained); a title with no leading time pattern yields an all-day event
whose start and end equal the unchanged calendar date, with the title
unchanged. -/
theorem spec_C4_amended :
    updateEventModel c4now c4href "14:00-15:30 Lunch" = UpdateOutcome.upsert c4timed ∧
    c4timed.Start.DateTime = "2025-11-05T14:00:00+09:00" ∧
    c4timed.End.DateTime = "2025-11-05T15:30:00+09:00" ∧
    c4timed.Summary = " Lunch" ∧
    updateEventModel c4now c4href "Party" = UpdateOutcome.upsert c4allday ∧
    c4allday.Summary = "Party" ∧
    c4allday.Start.Date = "2025-11-05" ∧
    c4allday.Start = c4allday.End := by
  decide

/-- C1 counterexample: with the run at 2025-10-11T12:00:00Z, the
boundary `tommorow` is 2025-10-12T12:00:00Z; the remote event whose
start date is today (2025-10-11) parses to an instant before the
boundary and is kept — the claim says the {today, next week} pair is
removed, so removing today fails on the code. -/
theorem spec_C1_counterexample :
    parseDateOnly "2025-10-11" = some (c1now - 12 * 3600) ∧
    deleteUpcomingDecision c1tomorrow "2025-10-11" = false ∧
    deleteUpcomingDecision c1tomorrow "2025-10-10" = false ∧
    deleteUpcomingDecision c1tomorrow "2025-10-18" = true := by
  decide

/-- C1 (amended): `DeleteUpcomingEvents` deletes exactly those remote
events whose start — parsed as a zoned timestamp or as a plain date —
falls at or after `tommorow` (the run instant plus one day), and keeps
every remote event whose parsed start falls before that boundary; in
the {yesterday, today, next week} scenario it removes exactly
{next week} and leaves {yesterday, today} untouched. -/
theorem spec_C1_amended :
    (∀ tom s t, parseRFC3339 s = some t → parseDateOnly s = none →
      (deleteUpcomingDecision tom s = true ↔ tom ≤ t)) ∧
    (∀ tom s t, parseRFC3339 s = none → parseDateOnly s = some t →
      (deleteUpcomingDecision tom s = true ↔ tom ≤ t)) ∧
    deleteUpcomingDecision c1tomorrow "2025-10-10" = false ∧
    deleteUpcomingDecision c1tomorrow "2025-10-11" = false ∧
    deleteUpcomingDecision c1tomorrow "2025-10-18" = true := by
  refine ⟨?_, ?_, by decide, by decide, by decide⟩
  · intro tom s t h1 h2
    simp only [deleteUpcomingDecision, h1, h2]
    simp [not_lt]
  · intro tom s t h1 h2
    simp only [deleteUpcomingDecision, h1, h2]
    simp [not_lt]

/-- C1 witness: the next-week event of the scenario, via the plain-date
branch of the amended theorem. -/
theorem spec_C1_witness :
    parseRFC3339 "2025-10-18" = none ∧
    parseDateOnly "2025-10-18" = some 1760745600 ∧
    (deleteUpcomingDecision c1tomorrow "2025-10-18" = true ↔
      c1tomorrow ≤ 1760745600) :=
  ⟨by decide, by decide,
    spec_C1_amended.2.1 c1tomorrow "2025-10-18" 1760745600 (by decide) (by decide)⟩

/-- C3 counterexample: the reversed explicit range `"10:00-09:00 Foo"`
normalizes to an end instant one hour before the start instant — the
code uses explicit end components unchanged and never corrects reversed
ranges, so the claimed invariant fails. -/
theorem spec_C3_counterexample :
    updateEventModel c3now c3href "10:00-09:00 Foo" = UpdateOutcome.upsert c3event ∧
    parseRFC3339 c3event.Start.DateTime = some c3startI ∧
    parseRFC3339 c3event.End.DateTime = some c3endI ∧
    c3endI < c3startI := by
  decide

/-- C3 (amended): end is never before start for every normalized event
except one fed a reversed explicit range: (1) a timed event with no
explicit end time gets end = start + one hour; (2) a timed event whose
explicit end is at or after its start (with real minute values) keeps
end at or after start; (3) an all-day event has start equal to end;
(4) a banner event whose six dropdowns resolve to real calendar dates
whose end date is at or after the start date in calendar order — across
month and year boundaries — is built by `updateBannerEvent` from start
and end instants with end at or after start.  A reversed explicit range
(timed title or banner dropdowns) yields end before start. -/
theorem spec_C3_amended :
    (∀ y m d shS smS,
      (normTimed y m d shS smS "" "").2 = (normTimed y m d shS smS "" "").1 + 3600) ∧
    (∀ y m d shS smS ehS emS sh sm eh em,
      atoi shS = some sh → atoi smS = some sm →
      atoi ehS = some eh → atoi emS = some em →
      0 ≤ em → sm ≤ 59 → (sh < eh ∨ (sh = eh ∧ sm ≤ em)) →
      (normTimed y m d shS smS ehS emS).1 ≤ (normTimed y m d shS smS ehS emS).2) ∧
    (∀ now href title e, updateEventModel now href title = UpdateOutcome.upsert e →
      (eventTimeSplit title).1 = none → e.Start = e.End) ∧
    (∀ syS smoS sdS eyS emoS edS seid title sy smo sd ey emo ed,
      selectedIntValue syS = some sy → selectedIntValue smoS = some smo →
      selectedIntValue sdS = some sd → selectedIntValue eyS = some ey →
      selectedIntValue emoS = some emo → selectedIntValue edS = some ed →
      1 ≤ sy → 1 ≤ smo → smo ≤ 12 → 1 ≤ sd →
      sd ≤ ((daysInMonth sy smo.toNat : Nat) : Int) →
      1 ≤ ey → 1 ≤ emo → emo ≤ 12 → 1 ≤ ed →
      (sy < ey ∨ (sy = ey ∧ (smo < emo ∨ (smo = emo ∧ sd ≤ ed)))) →
      updateBannerModel syS smoS sdS eyS emoS edS seid title =
        some { Id := eventIdBanner seid sy smo sd, Summary := title,
               Start := { Date := fmtDate (timeDate sy smo sd 0 0 tokyoOff) tokyoOff,
                          DateTime := "", TimeZone := "Asia/Tokyo" },
               End := { Date := fmtDate (timeDate ey emo ed 0 0 tokyoOff) tokyoOff,
                        DateTime := "", TimeZone := "Asia/Tokyo" } } ∧
      timeDate sy smo sd 0 0 tokyoOff ≤ timeDate ey emo ed 0 0 tokyoOff) := by
  refine ⟨?_, ?_, ?_, ?_⟩
  · intro y m d shS smS
    simp only [normTimed, atoi_nil]
    simp only [timeDate]
    ring
  · intro y m d shS smS ehS emS sh sm eh em h1 h2 h3 h4 hem hsm hord
    simp only [normTimed, atoiOr0, h1, h2, h3, h4]
    simp only [timeDate, tokyoOff]
    rcases hord with h | ⟨rfl, h⟩ <;> omega
  · intro now href title e h hnone
    obtain ⟨y, m, d, seid, hd, hs, he⟩ := updateEventModel_upsert_build h
    subst he
    simp only [buildTimedOrAllDay, hnone]
  · intro syS smoS sdS eyS emoS edS seid title sy smo sd ey emo ed
    intro hsyS hsmoS hsdS heyS hemoS hedS hsy hsmo1 hsmo2 hsd1 hsd2 hey hemo1 hemo2 hed1 hlex
    constructor
    · simp only [updateBannerModel, sivVal, hsyS, hsmoS, hsdS, heyS, hemoS, hedS]
    · have hdays := daysFromCivil_le_of_dateLex sy smo sd ey emo ed hsy hsmo1 hsmo2
        hsd1 hsd2 hey hemo1 hemo2 hed1 hlex
      have hA := dateToDays_eq_daysFromCivil sy smo sd hsmo1 hsmo2
      have hB := dateToDays_eq_daysFromCivil ey emo ed hemo1 hemo2
      simp only [timeDate, hA, hB]
      linarith

/-- C3 witness: the ordinary range `"14:00-15:30"` satisfies the
explicit-end clause of the amended theorem, and a month-crossing banner
range 2025-09-28 to 2025-10-03 satisfies the banner clause. -/
theorem spec_C3_witness :
    (atoi "14" = some 14 ∧ atoi "00" = some 0 ∧
      atoi "15" = some 15 ∧ atoi "30" = some 30 ∧
      (normTimed 2025 10 20 "14" "00" "15" "30").1 ≤
        (normTimed 2025 10 20 "14" "00" "15" "30").2) ∧
    (selectedIntValue (some "2025") = some 2025 ∧
      selectedIntValue (some "9") = some 9 ∧
      selectedIntValue (some "28") = some 28 ∧
      selectedIntValue (some "10") = some 10 ∧
      selectedIntValue (some "3") = some 3 ∧
      28 ≤ ((daysInMonth 2025 (9 : Int).toNat : Nat) : Int) ∧
      (updateBannerModel (some "2025") (some "9") (some "28") (some "2025") (some "10")
          (some "3") "7" "Fair" =
        some { Id := eventIdBanner "7" 2025 9 28, Summary := "Fair",
               Start := { Date := fmtDate (timeDate 2025 9 28 0 0 tokyoOff) tokyoOff,
                          DateTime := "", TimeZone := "Asia/Tokyo" },
               End := { Date := fmtDate (timeDate 2025 10 3 0 0 tokyoOff) tokyoOff,
                        DateTime := "", TimeZone := "Asia/Tokyo" } } ∧
        timeDate 2025 9 28 0 0 tokyoOff ≤ timeDate 2025 10 3 0 0 tokyoOff)) :=
  ⟨⟨by decide, by decide, by decide, by decide,
    spec_C3_amended.2.1 2025 10 20 "14" "00" "15" "30" 14 0 15 30
      (by decide) (by decide) (by decide) (by decide) (by decide) (by decide)
      (Or.inl (by decide))⟩,
   ⟨by decide, by decide, by decide, by decide, by decide, by decide,
    spec_C3_amended.2.2.2 (some "2025") (some "9") (some "28") (some "2025") (some "10")
      (some "3") "7" "Fair" 2025 9 28 2025 10 3
      (by decide) (by decide) (by decide) (by decide) (by decide) (by decide)
      (by decide) (by decide) (by decide) (by decide) (by decide)
      (by decide) (by decide) (by decide) (by decide)
      (Or.inr ⟨rfl, Or.inl (by decide)⟩)⟩⟩

/-- C5: for a timed event whose title carries a start time but no
explicit end time, normalization produces the instant at hour
`startHour + 1` and minute `startMin` on the event's date; when an
explicit end time is present, the given end hour and minute are used
unchanged on the same date. -/
theorem spec_C5 :
    (∀ y m d shS smS sh sm, atoi shS = some sh → atoi smS = some sm →
      normTimed y m d shS smS "" "" =
        (timeDate y m d sh sm tokyoOff, timeDate y m d (sh + 1) sm tokyoOff)) ∧
    (∀ y m d shS smS ehS emS sh sm eh em,
      atoi shS = some sh → atoi smS = some sm →
      atoi ehS = some eh → atoi emS = some em →
      normTimed y m d shS smS ehS emS =
        (timeDate y m d sh sm tokyoOff, timeDate y m d eh em tokyoOff)) := by
  constructor
  · intro y m d shS smS sh sm h1 h2
    simp only [normTimed, atoiOr0, h1, h2, atoi_nil]
  · intro y m d shS smS ehS emS sh sm eh em h1 h2 h3 h4
    simp only [normTimed, atoiOr0, h1, h2, h3, h4]

/-- C5 witness: `"14:00"` with no explicit end defaults to 15:00, and
`"14:00-15:30"` keeps 15:30. -/
theorem spec_C5_witness :
    atoi "14" = some 14 ∧ atoi "00" = some 0 ∧
    normTimed 2025 10 20 "14" "00" "" "" =
      (timeDate 2025 10 20 14 0 tokyoOff, timeDate 2025 10 20 (14 + 1) 0 tokyoOff) :=
  ⟨by decide, by decide,
    spec_C5.1 2025 10 20 "14" "00" 14 0 (by decide) (by decide)⟩

/-- C8 counterexample: an attempt whose `Update` call reports a
rate-limit error and whose `Insert` call reports a non-rate-limit error
is not retried: the other error is surfaced immediately, even though a
remote call of the operation reported a rate-limit condition and the
next attempt would have succeeded. -/
theorem spec_C8_counterexample :
    isRateLimit rlMsg = true ∧
    upsertModel [⟨CallResult.err rlMsg, CallResult.err dupMsg⟩,
                 ⟨CallResult.ok, CallResult.ok⟩] = SyncResult.failure dupMsg := by
  decide

/-- C8 (amended): a rate-limit condition reported by the `Insert` call
of `Upsert`, or by the `Delete` call of `DeleteEvent`, makes the
operation wait and retry itself with no bound on retries; a failed
`Update` call (whatever its error) is not retried but falls through to
`Insert`; any other `Insert`/`Delete` error is returned to the caller
without retry; an upsert whose remote calls report rate-limit twice and
then succeed ultimately returns success with no error surfaced. -/
theorem spec_C8_amended :
    (∀ a rest, a.update = CallResult.ok →
      upsertModel (a :: rest) = SyncResult.success) ∧
    (∀ a rest mu, a.update = CallResult.err mu → a.insert = CallResult.ok →
      upsertModel (a :: rest) = SyncResult.success) ∧
    (∀ a rest mu mi, a.update = CallResult.err mu → a.insert = CallResult.err mi →
      isRateLimit mi = true → upsertModel (a :: rest) = upsertModel rest) ∧
    (∀ a rest mu mi, a.update = CallResult.err mu → a.insert = CallResult.err mi →
      isRateLimit mi = false → upsertModel (a :: rest) = SyncResult.failure mi) ∧
    (∀ rest m, isRateLimit m = true →
      deleteEventModel (CallResult.err m :: rest) = deleteEventModel rest) ∧
    (∀ rest m, isRateLimit m = false →
      deleteEventModel (CallResult.err m :: rest) = SyncResult.failure m) ∧
    (∀ rest, deleteEventModel (CallResult.ok :: rest) = SyncResult.success) ∧
    upsertModel [⟨CallResult.err rlMsg, CallResult.err rlMsg⟩,
                 ⟨CallResult.err rlMsg, CallResult.err rlMsg⟩,
                 ⟨CallResult.ok, CallResult.ok⟩] = SyncResult.success := by
  refine ⟨?_, ?_, ?_, ?_, ?_, ?_, ?_, by decide⟩
  · intro a rest h
    simp only [upsertModel, h]
  · intro a rest mu h1 h2
    simp only [upsertModel, h1, h2]
  · intro a rest mu mi h1 h2 h3
    simp only [upsertModel, h1, h2, h3, if_true]
  · intro a rest mu mi h1 h2 h3
    simp [upsertModel, h1, h2, h3]
  · intro rest m h
    simp only [deleteEventModel, h, if_true]
  · intro rest m h
    simp [deleteEventModel, h]
  · intro rest
    simp only [deleteEventModel]

/-- C8 witness: a rate-limited insert retries into the remaining trace
and then succeeds. -/
theorem spec_C8_witness :
    isRateLimit rlMsg = true ∧
    upsertModel [⟨CallResult.err rlMsg, CallResult.err rlMsg⟩,
                 ⟨CallResult.ok, CallResult.ok⟩] =
      upsertModel [⟨CallResult.ok, CallResult.ok⟩] :=
  ⟨by decide,
    spec_C8_amended.2.2.1 ⟨CallResult.err rlMsg, CallResult.err rlMsg⟩
      [⟨CallResult.ok, CallResult.ok⟩] rlMsg rlMsg rfl rfl (by decide)⟩

end Cybozu2GCal
